import Mathlib

/-!
Shallow embedding of the `iproute2-rs` crate (`src/ip/{iplink,iproute,ipnetns,veth,bridge}.rs`).

Effectful Rust code is embedded as pure Lean functions over an explicit
environment `Env` that supplies the result of every system call (open, setns,
close, unshare, mount, umount, statvfs, read_dir, unlink, fork) and of every
netlink transport exchange.  Each embedded operation returns its result
together with a trace of events (descriptor opens/closes, log lines, running
the caller-supplied work), so resource-lifetime and error-swallowing claims
can be stated about the trace.
-/

namespace Iproute2

/-! ### Constants from `netlink_packet_route`, `rtnetlink`, `nix` -/

/-- `IFF_UP` flag bit (value 1). -/
def IFF_UP : Nat := 1

/-- `NLM_F_REQUEST` netlink header flag. -/
def NLM_F_REQUEST : Nat := 1

/-- `NLM_F_ACK` netlink header flag. -/
def NLM_F_ACK : Nat := 4

/-- `NLM_F_EXCL` netlink header flag. -/
def NLM_F_EXCL : Nat := 0x200

/-- `NLM_F_CREATE` netlink header flag. -/
def NLM_F_CREATE : Nat := 0x400

/-- `rtnetlink::NETNS_PATH`, the namespace run directory used by `Opt::NetNS`. -/
def NETNS_PATH : String := "/run/netns/"

/-- `ipnetns.rs`: `pub const NETNS_RUN_DIR: &str = "/var/run/netns/";` -/
def NETNS_RUN_DIR : String := "/var/run/netns/"

/-! ### Flags passed to system calls (`nix::fcntl::OFlag`, `nix::mount::MsFlags`) -/

/-- Open(2) flags used by this crate. -/
inductive OFlag where
  | O_RDONLY
  | O_CLOEXEC
deriving DecidableEq, Repr

/-- Mount(2) flags used by this crate. -/
inductive MsFlag where
  | MS_BIND
  | MS_SLAVE
  | MS_REC
  | MS_RDONLY
deriving DecidableEq, Repr

/-! ### Link message data model (`netlink_packet_route::LinkMessage`) -/

/-- The part of `LinkMessageHeader` this crate touches: interface index and the
change-mask / flags bitmasks (u32 values, modelled as `Nat`). -/
structure LinkHeader where
  index : Nat := 0
  flags : Nat := 0
  change_mask : Nat := 0
deriving DecidableEq, Repr

/-- `InfoKind` variants used by this crate. -/
inductive InfoKind where
  | veth
  | bridge
deriving DecidableEq, Repr

mutual
/-- `LinkMessage`: header plus ordered attribute list (`nlas`). -/
inductive LinkMessage where
  | mk (header : LinkHeader) (nlas : List LinkNla)

/-- The `rtnl::link::nlas::Nla` variants this crate appends. -/
inductive LinkNla where
  | ifName (n : String)
  | master (index : Nat)
  | netNsFd (fd : Int)
  | info (infos : List LinkInfo)

/-- `rtnl::link::nlas::Info` variants. -/
inductive LinkInfo where
  | kind (k : InfoKind)
  | data (d : InfoData)

/-- `rtnl::link::nlas::InfoData` variants used here; bridge info attributes are
opaque to this crate and modelled as bare numbers. -/
inductive InfoData where
  | veth (v : VethInfo)
  | bridge (b : List Nat)

/-- `rtnl::link::nlas::VethInfo`: the nested peer link message. -/
inductive VethInfo where
  | peer (m : LinkMessage)
end

/-- Header accessor. -/
def LinkMessage.header : LinkMessage → LinkHeader
  | .mk h _ => h

/-- Attribute-list accessor. -/
def LinkMessage.nlas : LinkMessage → List LinkNla
  | .mk _ n => n

/-- Append one attribute (Rust `message.nlas.push(...)`). -/
def LinkMessage.pushNla : LinkMessage → LinkNla → LinkMessage
  | .mk h n, x => .mk h (n ++ [x])

/-- Replace the header, keeping the attributes. -/
def LinkMessage.withHeader : LinkMessage → LinkHeader → LinkMessage
  | .mk _ n, h => .mk h n

/-- `LinkMessage::default()`: zeroed header, no attributes. -/
def LinkMessage.default : LinkMessage := .mk {} []

/-! ### Events and the system-call environment -/

/-- Observable events emitted by the embedded operations. -/
inductive Event where
  /-- An `open(2)` call that succeeded, with the path, the flags passed, and
  the descriptor returned. -/
  | openFd (path : String) (flags : List OFlag) (fd : Int)
  /-- A `close(2)` call on a descriptor. -/
  | closeFd (fd : Int)
  /-- A `println!` log line (a failure swallowed rather than returned). -/
  | logMsg (msg : String)
  /-- The caller-supplied work `f` was invoked (`ip_net_ns_exec`). -/
  | runWork
deriving DecidableEq, Repr

/-- A netlink response frame's payload, as far as this crate inspects it:
either a protocol-level error payload carrying a kernel error code, or
anything else (data frame, ack, done marker). -/
inductive NetlinkPayload where
  | error (code : Int)
  | other
deriving DecidableEq, Repr

/-- Environment supplying the outcome of every external call.  Error strings
are the OS / transport error texts the corresponding Rust errors display. -/
structure Env where
  /-- `nix::fcntl::open(path, flags, mode)`: descriptor or error text. -/
  openRes : String → List OFlag → Except String Int
  /-- `nix::sched::setns(fd, CLONE_NEWNET)`. -/
  setnsRes : Int → Except String Unit
  /-- `nix::unistd::close(fd)`. -/
  closeRes : Int → Except String Unit
  /-- `nix::sched::unshare(CLONE_NEWNS)`. -/
  unshareRes : Except String Unit
  /-- `nix::mount::mount(src, dst, fstype, flags, data)`. -/
  mountRes : String → String → List MsFlag → Except String Unit
  /-- `nix::mount::umount2(path, MNT_DETACH)`. -/
  umountRes : String → Except String Unit
  /-- `statvfs("/sys")`: `some rdonly` on success (`rdonly` = `ST_RDONLY` set),
  `none` when `statvfs` itself fails. -/
  statvfsSysRdonly : Option Bool
  /-- `read_dir(dir)`: `some names` with the entries' file names, or `none`
  when the directory cannot be read. -/
  readDirRes : String → Option (List String)
  /-- `nix::unistd::unlink(path)`. -/
  unlinkRes : String → Except String Unit
  /-- `fork()` fails. -/
  forkFails : Bool
  /-- The link-lookup boundary: interface name to link message, `none` when no
  link has that name (drives `get_link_name`). -/
  links : String → Option LinkMessage

/-! ### `iplink.rs`: `get_link_name`, `Opt`, `options` -/

/-- `get_link_name(name)`: synchronous link lookup over the transport; `Ok`
with the matching link, or the "no link named" error. -/
def get_link_name (env : Env) (n : String) : Except String LinkMessage :=
  match env.links n with
  | some link => .ok link
  | none => .error ("no link named " ++ n)

/-- `pub fn name(name, message)`: push an `IfName` attribute. -/
def name (n : String) (message : LinkMessage) : LinkMessage :=
  message.pushNla (.ifName n)

/-- `enum Opt`: the link-mutation directives. -/
inductive Opt where
  | Up
  | Down
  | Master (master_name : String)
  | NetNS (netns_name : String)
deriving DecidableEq, Repr

/-- `Opt::opt(&self, message)`: mutate the message or fail.  Returns the
result, the (possibly mutated) message, and the emitted events.  On failure
the message is returned as it was (the Rust `?` propagates before any push). -/
def Opt.opt (env : Env) (o : Opt) (message : LinkMessage) :
    Except String Unit × LinkMessage × List Event :=
  match o with
  | .Up =>
      let h := message.header
      (.ok (), message.withHeader
        { h with change_mask := h.change_mask ||| IFF_UP,
                 flags := h.flags ||| IFF_UP }, [])
  | .Down =>
      let h := message.header
      (.ok (), message.withHeader
        { h with change_mask := h.change_mask ||| IFF_UP,
                 flags := h.flags &&& 0xFFFFFFFE }, [])
  | .Master master_name =>
      match get_link_name env master_name with
      | .error e => (.error e, message, [])
      | .ok link => (.ok (), message.pushNla (.master link.header.index), [])
  | .NetNS netns_name =>
      let path := NETNS_PATH ++ netns_name
      match env.openRes path [.O_RDONLY] with
      | .error e => (.error e, message, [])
      | .ok fd =>
          (.ok (), message.pushNla (.netNsFd fd), [.openFd path [.O_RDONLY] fd])

/-- `pub fn options(opts, message)`: apply options in order, stopping at the
first failure. -/
def options (env : Env) : List Opt → LinkMessage →
    Except String Unit × LinkMessage × List Event
  | [], message => (.ok (), message, [])
  | o :: rest, message =>
      match Opt.opt env o message with
      | (.error e, m2, tr) => (.error e, m2, tr)
      | (.ok _, m2, tr) =>
          match options env rest m2 with
          | (r, m3, tr2) => (r, m3, tr ++ tr2)

/-! ### `veth.rs`, `bridge.rs`: link-kind encoders -/

/-- `struct Veth`: peer name and option list. -/
structure Veth where
  peer_name : String
  options : List Opt
deriving DecidableEq, Repr

/-- `struct Bridge`: opaque bridge info attributes. -/
structure Bridge where
  info : List Nat
deriving DecidableEq, Repr

/-- `impl LinkTypeTrait for Veth`: push `Kind=Veth`; build a separate peer
message carrying the peer name; apply `self.options` — to `message`, the
requesting (parent) message, exactly as the source does; nest the peer message
as `Info::Data(InfoData::Veth(VethInfo::Peer(..)))`. -/
def Veth.link_type (env : Env) (v : Veth) (message : LinkMessage) :
    Except String Unit × LinkMessage × List Event :=
  let peer_message := Iproute2.name v.peer_name LinkMessage.default
  match Iproute2.options env v.options message with
  | (.error e, m2, tr) => (.error e, m2, tr)
  | (.ok _, m2, tr) =>
      let link_info_nlas : List LinkInfo :=
        [.kind .veth, .data (.veth (.peer peer_message))]
      (.ok (), m2.pushNla (.info link_info_nlas), tr)

/-- `impl LinkTypeTrait for Bridge`: push `Kind=Bridge` and the caller-supplied
bridge info verbatim. -/
def Bridge.link_type (b : Bridge) (message : LinkMessage) :
    Except String Unit × LinkMessage × List Event :=
  let link_info_nlas : List LinkInfo := [.kind .bridge, .data (.bridge b.info)]
  (.ok (), message.pushNla (.info link_info_nlas), [])

/-- `enum LinkTypeEnum`. -/
inductive LinkTypeEnum where
  | Veth (v : Veth)
  | Bridge (b : Bridge)
deriving DecidableEq, Repr

/-- `enum_dispatch` of `LinkTypeTrait::link_type`. -/
def LinkTypeEnum.link_type (env : Env) :
    LinkTypeEnum → LinkMessage → Except String Unit × LinkMessage × List Event
  | .Veth v, message => Veth.link_type env v message
  | .Bridge b, message => Bridge.link_type b message

/-! ### Request composition and execution (`iplink.rs`, `iproute.rs`) -/

/-- Route descriptor: opaque to this crate except the header's `table` field;
the raw payload stands for the rest. -/
structure RouteMessage where
  table : Nat := 0
  raw : Nat := 0
deriving DecidableEq, Repr

/-- `RtnlMessage` variants this crate builds. -/
inductive RtnlMessage where
  | NewLink (m : LinkMessage)
  | DelLink (m : LinkMessage)
  | NewRoute (r : RouteMessage)
  | DelRoute (r : RouteMessage)

/-- The part of `NetlinkHeader` this crate mutates: the request flags
(`NetlinkMessage::from` leaves them zeroed). -/
structure NetlinkHeader where
  flags : Nat := 0
deriving DecidableEq, Repr

/-- A framed netlink request: payload plus header. -/
structure NetlinkRequest where
  payload : RtnlMessage
  header : NetlinkHeader

/-- Errors surfaced by `execute`: a transport failure from `handle.request`, a
message-building failure, or a kernel-reported netlink error code. -/
inductive ExecErr where
  | build (e : String)
  | transport (e : String)
  | netlink (code : Int)
deriving DecidableEq, Repr

/-- The netlink transport boundary: `handle.request(req)` yields the ordered
response frames (or a transport error). -/
structure Transport where
  respond : NetlinkRequest → Except String (List NetlinkPayload)

/-- The response-drain loop shared by `IPLink::execute` and
`IPRoute::execute`: pull frames until exhaustion, returning the first
protocol-level error payload's code; also count the frames consumed. -/
def drainFrames : List NetlinkPayload → Except Int Unit × Nat
  | [] => (.ok (), 0)
  | f :: rest =>
      match f with
      | .error code => (.error code, 1)
      | .other =>
          match drainFrames rest with
          | (r, n) => (r, n + 1)

/-- `enum Action` for links. -/
inductive Action where
  | Add
  | Delete
  | Set
deriving DecidableEq, Repr

/-- `Action::action(&self, header)`: assign the request header flags from the
action (an outright assignment, not an OR). -/
def Action.action : Action → NetlinkHeader → NetlinkHeader
  | .Add, header =>
      { header with flags := NLM_F_REQUEST ||| NLM_F_ACK ||| NLM_F_EXCL ||| NLM_F_CREATE }
  | _, header =>
      { header with flags := NLM_F_REQUEST ||| NLM_F_ACK }

/-- `struct IPLink`. -/
structure IPLink where
  action : Action
  name : String
  options : List Opt
  link_type : Option LinkTypeEnum

/-- The message-building phase of `IPLink::execute`: default message, push the
interface name, apply the options, then the link-kind encoding if present. -/
def IPLink.buildMessage (env : Env) (l : IPLink) :
    Except String LinkMessage × List Event :=
  let m1 := Iproute2.name l.name LinkMessage.default
  match Iproute2.options env l.options m1 with
  | (.error e, _, tr) => (.error e, tr)
  | (.ok _, m2, tr) =>
      match l.link_type with
      | none => (.ok m2, tr)
      | some lt =>
          match LinkTypeEnum.link_type env lt m2 with
          | (.error e, _, tr2) => (.error e, tr ++ tr2)
          | (.ok _, m3, tr2) => (.ok m3, tr ++ tr2)

/-- The request `IPLink::execute` frames for a built message: `Delete` maps to
`DelLink`, `Add` and `Set` both map to `NewLink`; then `Action::action` sets
the header flags on the `from`-initialized (zero-flag) header. -/
def IPLink.buildReq (l : IPLink) (message : LinkMessage) : NetlinkRequest :=
  let payload := match l.action with
    | .Delete => RtnlMessage.DelLink message
    | .Add | .Set => RtnlMessage.NewLink message
  { payload := payload, header := l.action.action {} }

/-- `IPLink::execute(&self, handle)`: build the message, frame the request,
send it, and drain the response stream, failing on the first error frame. -/
def IPLink.execute (env : Env) (t : Transport) (l : IPLink) :
    Except ExecErr Unit × List Event :=
  match l.buildMessage env with
  | (.error e, tr) => (.error (.build e), tr)
  | (.ok message, tr) =>
      let req := l.buildReq message
      match t.respond req with
      | .error e => (.error (.transport e), tr)
      | .ok frames =>
          match drainFrames frames with
          | (.error code, _) => (.error (.netlink code), tr)
          | (.ok _, _) => (.ok (), tr)

/-- `enum Action` for routes (`iproute.rs`). -/
inductive RouteAction where
  | Add
  | Del
deriving DecidableEq, Repr

/-- `struct IPRoute`. -/
structure IPRoute where
  action : RouteAction
  msg : RouteMessage
deriving DecidableEq, Repr

/-- The request `IPRoute::execute` frames: `Del` maps to `DelRoute`, `Add` to
`NewRoute`; `Add` assigns REQUEST|ACK|EXCL|CREATE, otherwise REQUEST|ACK. -/
def IPRoute.buildReq (r : IPRoute) : NetlinkRequest :=
  let payload := match r.action with
    | .Del => RtnlMessage.DelRoute r.msg
    | .Add => RtnlMessage.NewRoute r.msg
  let flags :=
    if r.action = .Add then
      NLM_F_REQUEST ||| NLM_F_ACK ||| NLM_F_EXCL ||| NLM_F_CREATE
    else
      NLM_F_REQUEST ||| NLM_F_ACK
  { payload := payload, header := { flags := flags } }

/-- `IPRoute::execute(&self, handle)`: frame the request, send it, and drain
the response stream, failing on the first error frame. -/
def IPRoute.execute (t : Transport) (r : IPRoute) : Except ExecErr Unit :=
  let req := r.buildReq
  match t.respond req with
  | .error e => .error (.transport e)
  | .ok frames =>
      match drainFrames frames with
      | (.error code, _) => .error (.netlink code)
      | (.ok _, _) => .ok ()

/-! ### `ipnetns.rs`: namespace switch engine and isolated execution -/

/-- `set_net_ns(ns_name)`: open `<NETNS_RUN_DIR><name>` with
`O_RDONLY | O_CLOEXEC`, `setns(fd, CLONE_NEWNET)`, close the descriptor on
both the failure and the success path of `setns` (each `close(fd)?` can itself
fail and is then propagated). -/
def set_net_ns (env : Env) (ns_name : String) :
    Except String Unit × List Event :=
  let path := NETNS_RUN_DIR ++ ns_name
  let open_flags : List OFlag := [.O_RDONLY, .O_CLOEXEC]
  match env.openRes path open_flags with
  | .error e =>
      (.error ("Cannot open network namespace \"" ++ ns_name ++ "\": " ++ e ++ "\n"), [])
  | .ok fd =>
      let tro := [Event.openFd path open_flags fd]
      match env.setnsRes fd with
      | .error e =>
          match env.closeRes fd with
          | .error ce => (.error ce, tro ++ [.closeFd fd])
          | .ok _ =>
              (.error ("setting the network namespace " ++ ns_name ++ " failed: " ++ e),
               tro ++ [.closeFd fd])
      | .ok _ =>
          match env.closeRes fd with
          | .error ce => (.error ce, tro ++ [.closeFd fd])
          | .ok _ => (.ok (), tro ++ [.closeFd fd])

/-- One iteration of `bind_etc`'s per-file loop: bind-mount
`/etc/netns/<ns>/<file>` onto `/etc/<file>`; a failure is only logged. -/
def bind_etc_file (env : Env) (ns_name file : String) : List Event :=
  let netns_name := "/etc/netns/" ++ ns_name ++ "/" ++ file
  let etc_name := "/etc/" ++ file
  match env.mountRes netns_name etc_name [.MS_BIND] with
  | .error e =>
      [.logMsg ("Bind " ++ netns_name ++ " -> " ++ etc_name ++ " failed: " ++ e ++ "\n")]
  | .ok _ => []

/-- `bind_etc(ns_name)`: skip silently when the name is over 255 bytes or the
override directory is unreadable; otherwise bind-mount every file, logging and
skipping individual failures.  Never returns an error. -/
def bind_etc (env : Env) (ns_name : String) : List Event :=
  if ns_name.length > 255 then []
  else
    match env.readDirRes ("/etc/netns/" ++ ns_name) with
    | none => []
    | some files => files.flatMap (bind_etc_file env ns_name)

/-- The `mount_flags` computed for remounting `/sys`: empty when the
detach-unmount succeeded, otherwise `MS_RDONLY` exactly when `statvfs`
succeeded and reported a read-only mount. -/
def sysMountFlags (env : Env) : List MsFlag :=
  match env.umountRes "/sys" with
  | .ok _ => []
  | .error _ =>
      match env.statvfsSysRdonly with
      | some true => [.MS_RDONLY]
      | _ => []

/-- `netns_switch(ns_name)`: `set_net_ns`, unshare the mount namespace,
re-slave `/` recursively, detach-unmount `/sys` (falling back to an `MS_RDONLY`
flag when the unmount fails and `statvfs` reports a read-only mount), mount
`/sys` afresh, then `bind_etc`. -/
def netns_switch (env : Env) (ns_name : String) :
    Except String Unit × List Event :=
  match set_net_ns env ns_name with
  | (.error e, tr) => (.error e, tr)
  | (.ok _, tr) =>
      match env.unshareRes with
      | .error e => (.error ("unshare failed: " ++ e), tr)
      | .ok _ =>
          match env.mountRes "" "/" [.MS_SLAVE, .MS_REC] with
          | .error e =>
              (.error ("\"mount --make-rslave /\" failed: " ++ e ++ "\n"), tr)
          | .ok _ =>
              match env.mountRes ns_name "/sys" (sysMountFlags env) with
              | .error e => (.error ("mount of /sys failed: " ++ e ++ "\n"), tr)
              | .ok _ => (.ok (), tr ++ bind_etc env ns_name)

/-- The child branch of `ip_net_ns_exec`: exit 1 without running `f` when
`netns_switch` fails; otherwise run `f` and exit 1 on its error, 0 on its
success.  Returns the exit status and the child's trace. -/
def ip_net_ns_exec_child (env : Env) (ns_name : String)
    (fRes : Except String Unit) : Nat × List Event :=
  match netns_switch env ns_name with
  | (.error _, tr) => (1, tr)
  | (.ok _, tr) =>
      match fRes with
      | .error _ => (1, tr ++ [.runWork])
      | .ok _ => (0, tr ++ [.runWork])

/-- Modelled from the spec: `rtnetlink::NetworkNamespace::parent_process`
(external to `src/`) waits for the forked child and translates its exit status
into the call's success (exit 0) or failure (nonzero exit or signal). -/
def parent_process (childExit : Nat) : Except String Unit :=
  if childExit = 0 then .ok ()
  else .error "child process failed"

/-- `ip_net_ns_exec(ns_name, f)`: fork; the parent waits and translates the
child's exit status; the child runs `ip_net_ns_exec_child`; a failed fork
yields the "Fork failed" error.  Returns the parent-visible result and the
child's trace (empty when the fork failed). -/
def ip_net_ns_exec (env : Env) (ns_name : String)
    (fRes : Except String Unit) : Except String Unit × List Event :=
  if env.forkFails then (.error "Fork failed", [])
  else
    match ip_net_ns_exec_child env ns_name fRes with
    | (code, tr) => (parent_process code, tr)

/-- `ip_net_ns_del(ns_name)`: detach-unmount the reference file, only logging
a failure; then unlink it, returning an error when the unlink fails. -/
def ip_net_ns_del (env : Env) (ns_name : String) :
    Except String Unit × List Event :=
  let netns_path := NETNS_RUN_DIR ++ ns_name
  let tr1 : List Event :=
    match env.umountRes netns_path with
    | .error e =>
        [.logMsg ("Cannot umount namespace file \" " ++ netns_path ++ " \": " ++ e)]
    | .ok _ => []
  match env.unlinkRes netns_path with
  | .error e =>
      (.error ("Cannot remove namespace file \"" ++ netns_path ++ "\": " ++ e ++ "\n"), tr1)
  | .ok _ => (.ok (), tr1)

/-! ### Helper notions for the statements -/

/-- `needle` occurs inside `hay` as a contiguous substring. -/
def containsStr (hay needle : String) : Prop :=
  ∃ l r, hay.data = l ++ needle.data ++ r

/-- Whether an event is a `close(2)` call. -/
def Event.isClose : Event → Bool
  | .closeFd _ => true
  | _ => false

/-- Whether an event is a `println!` log line. -/
def Event.isLog : Event → Bool
  | .logMsg _ => true
  | _ => false

/-- A benign environment: every system call succeeds, `open` returns
descriptor 3, no `/etc/netns` override directory, no links. -/
def benignEnv : Env where
  openRes := fun _ _ => .ok 3
  setnsRes := fun _ => .ok ()
  closeRes := fun _ => .ok ()
  unshareRes := .ok ()
  mountRes := fun _ _ _ => .ok ()
  umountRes := fun _ => .ok ()
  statvfsSysRdonly := some false
  readDirRes := fun _ => none
  unlinkRes := fun _ => .ok ()
  forkFails := false
  links := fun _ => none

/-- A transport that answers every request with an empty response stream. -/
def emptyTransport : Transport where
  respond := fun _ => .ok []

/-! ### C1 — where `Veth::link_type` applies the option list -/

/-- C1: evaluating `Veth::link_type` at the failing input
`Veth { peer_name: "v1", options: [Up] }` on a parent message carrying
`IfName "v0"`.  The encoder succeeds, but the `Up` option lands on the
*parent* message (its header flags and change mask become 1 = `IFF_UP`),
while the nested peer message keeps a zeroed header and carries only the
peer name — the options are applied to the parent, not to the peer message,
contradicting the claim. -/
theorem veth_options_hit_parent_not_peer :
    Veth.link_type benignEnv { peer_name := "v1", options := [.Up] }
      (name "v0" LinkMessage.default)
    = (.ok (),
       LinkMessage.mk { index := 0, flags := 1, change_mask := 1 }
         [.ifName "v0",
          .info [.kind .veth,
                 .data (.veth (.peer (LinkMessage.mk { index := 0, flags := 0, change_mask := 0 }
                   [.ifName "v1"])))]],
       []) := by
  rfl

/-! ### C2 — flags used by `Opt::NetNS`'s open -/

/-- C2 counterexample: applying `Opt::NetNS("ns1")` performs exactly one open,
at `<NETNS_PATH>ns1`, with flag list `[O_RDONLY]` — and `O_CLOEXEC` is not
among those flags, so the open is not close-on-exec as the claim states. -/
theorem netns_open_lacks_cloexec :
    (Opt.opt benignEnv (.NetNS "ns1") LinkMessage.default).2.2
      = [Event.openFd (NETNS_PATH ++ "ns1") [OFlag.O_RDONLY] 3]
    ∧ OFlag.O_CLOEXEC ∉ [OFlag.O_RDONLY] := by
  exact ⟨rfl, by decide⟩

/-- C2 (amended): `Opt::NetNS(name)` opens the reference file at
`<namespace-run-dir>/<name>` with only the read-only flag (no close-on-exec);
on success it appends a `NetNsFd=<fd>` attribute, and when the open fails it
returns the error, leaving the message without any appended attribute. -/
theorem netns_opt_spec (env : Env) (nm : String) (m : LinkMessage) :
    (∀ fd, env.openRes (NETNS_PATH ++ nm) [OFlag.O_RDONLY] = .ok fd →
        Opt.opt env (.NetNS nm) m
          = (.ok (), m.pushNla (.netNsFd fd),
             [.openFd (NETNS_PATH ++ nm) [.O_RDONLY] fd]))
    ∧ (∀ e, env.openRes (NETNS_PATH ++ nm) [OFlag.O_RDONLY] = .error e →
        Opt.opt env (.NetNS nm) m = (.error e, m, [])) := by
  constructor
  · intro fd h
    simp [Opt.opt, h]
  · intro e h
    simp [Opt.opt, h]

/-- Witness for `netns_opt_spec` at a concrete environment and name. -/
theorem netns_opt_spec_witness :
    Opt.opt benignEnv (.NetNS "ns1") LinkMessage.default
      = (.ok (), LinkMessage.default.pushNla (.netNsFd 3),
         [.openFd (NETNS_PATH ++ "ns1") [.O_RDONLY] 3]) :=
  (netns_opt_spec benignEnv "ns1" LinkMessage.default).1 3 rfl

/-! ### C5 — header flags selected by the action -/

/-- C5: for link requests, `Add` assigns exactly
`REQUEST | ACK | EXCL | CREATE` and `Delete`/`Set` assign exactly
`REQUEST | ACK`, whatever the header held before; for route requests, `Add`
and `Del` assign the same two flag sets. -/
theorem action_flags_table :
    (∀ header : NetlinkHeader,
        (Action.action .Add header).flags
          = NLM_F_REQUEST ||| NLM_F_ACK ||| NLM_F_EXCL ||| NLM_F_CREATE
        ∧ (Action.action .Delete header).flags = NLM_F_REQUEST ||| NLM_F_ACK
        ∧ (Action.action .Set header).flags = NLM_F_REQUEST ||| NLM_F_ACK)
    ∧ (∀ l : IPLink, ∀ m : LinkMessage,
        (l.buildReq m).header = l.action.action {})
    ∧ (∀ r : RouteMessage,
        (IPRoute.buildReq { action := .Add, msg := r }).header.flags
          = NLM_F_REQUEST ||| NLM_F_ACK ||| NLM_F_EXCL ||| NLM_F_CREATE
        ∧ (IPRoute.buildReq { action := .Del, msg := r }).header.flags
          = NLM_F_REQUEST ||| NLM_F_ACK) := by
  refine ⟨fun header => ⟨rfl, rfl, rfl⟩, fun l m => rfl, fun r => ⟨rfl, rfl⟩⟩

/-! ### C10 — `Set` frames a new-link message; flags are assigned outright -/

/-- C10: a `Set` request carries the same `NewLink` payload as an `Add`
request over the same message (they differ only in the header flags the
action assigns), and `Action::action` assigns the header flags outright —
the flags it produces do not depend on whatever flags the header already
held. -/
theorem set_builds_newlink_flags_assigned :
    (∀ (nm : String) (opts : List Opt) (lt : Option LinkTypeEnum) (m : LinkMessage),
        (IPLink.buildReq { action := .Set, name := nm, options := opts, link_type := lt } m).payload
          = RtnlMessage.NewLink m
        ∧ (IPLink.buildReq { action := .Add, name := nm, options := opts, link_type := lt } m).payload
          = RtnlMessage.NewLink m)
    ∧ (∀ (a : Action) (h1 h2 : NetlinkHeader),
        (a.action h1).flags = (a.action h2).flags) := by
  constructor
  · intro nm opts lt m
    exact ⟨rfl, rfl⟩
  · intro a h1 h2
    cases a <;> rfl

/-! ### C6 — `Up` then `Down`: the mask/value convention -/

/-- The header state `Down` establishes: up-flag bit cleared, change-mask up
bit asserted. -/
def downState (m : LinkMessage) : Prop :=
  m.header.flags.testBit 0 = false ∧ m.header.change_mask.testBit 0 = true

lemma header_pushNla (m : LinkMessage) (x : LinkNla) :
    (m.pushNla x).header = m.header := by
  cases m
  rfl

lemma header_withHeader (m : LinkMessage) (h : LinkHeader) :
    (m.withHeader h).header = h := by
  cases m
  rfl

/-- A single option other than `Up` preserves `downState`, whether or not it
succeeds (on failure the message comes back unchanged). -/
lemma opt_preserves_downState (env : Env) (o : Opt) (m : LinkMessage)
    (hno : o ≠ .Up) (hs : downState m) :
    downState (Opt.opt env o m).2.1 := by
  rcases hs with ⟨hf, hm⟩
  cases o with
  | Up => exact absurd rfl hno
  | Down =>
      constructor
      · simp [Opt.opt, header_withHeader, Nat.testBit_and]
      · simp [Opt.opt, header_withHeader, IFF_UP, Nat.testBit_or]
  | Master n =>
      cases hlink : get_link_name env n with
      | error e => exact ⟨by simpa [Opt.opt, hlink] using hf, by simpa [Opt.opt, hlink] using hm⟩
      | ok link =>
          exact ⟨by simpa [Opt.opt, hlink, header_pushNla] using hf,
                 by simpa [Opt.opt, hlink, header_pushNla] using hm⟩
  | NetNS n =>
      cases hopen : env.openRes (NETNS_PATH ++ n) [.O_RDONLY] with
      | error e => exact ⟨by simpa [Opt.opt, hopen] using hf, by simpa [Opt.opt, hopen] using hm⟩
      | ok fd =>
          exact ⟨by simpa [Opt.opt, hopen, header_pushNla] using hf,
                 by simpa [Opt.opt, hopen, header_pushNla] using hm⟩

/-- Applying `Down` establishes `downState` from any starting header. -/
lemma opt_down_downState (env : Env) (m : LinkMessage) :
    downState (Opt.opt env .Down m).2.1 := by
  constructor
  · simp [Opt.opt, header_withHeader, Nat.testBit_and]
  · simp [Opt.opt, header_withHeader, IFF_UP, Nat.testBit_or]

/-- Applying `Up` sets the up bit in both the flags and the change mask. -/
lemma opt_up_sets_bits (env : Env) (m : LinkMessage) :
    ((Opt.opt env .Up m).2.1).header.flags.testBit 0 = true
    ∧ ((Opt.opt env .Up m).2.1).header.change_mask.testBit 0 = true := by
  constructor
  · simp [Opt.opt, header_withHeader, IFF_UP, Nat.testBit_or]
  · simp [Opt.opt, header_withHeader, IFF_UP, Nat.testBit_or]

/-- An option list without `Up` preserves `downState` (whether or not the run
succeeds: a failing step hands the message back as it was). -/
lemma options_noUp_preserves (env : Env) :
    ∀ (l : List Opt) (m : LinkMessage), Opt.Up ∉ l → downState m →
      downState (options env l m).2.1
  | [], m, _, hs => hs
  | o :: rest, m, hno, hs => by
      have ho : o ≠ .Up := fun h => hno (h ▸ List.mem_cons_self o rest)
      have hrest : Opt.Up ∉ rest := fun h => hno (List.mem_cons_of_mem o h)
      have h1 : downState (Opt.opt env o m).2.1 := opt_preserves_downState env o m ho hs
      cases hstep : Opt.opt env o m with
      | mk r rest2 =>
          cases r with
          | error e =>
              simp only [options, hstep]
              rw [hstep] at h1
              exact h1
          | ok u =>
              simp only [options, hstep]
              rw [hstep] at h1
              cases hrec : options env rest rest2.1 with
              | mk r2 p2 =>
                  have := options_noUp_preserves env rest rest2.1 hrest h1
                  rw [hrec] at this
                  simpa using this

/-- Splitting an option run over an append: if the whole run succeeds, the
first part succeeds and the second part runs from the intermediate message. -/
lemma options_append_ok (env : Env) :
    ∀ (a b : List Opt) (m m' : LinkMessage) (tr : List Event),
      options env (a ++ b) m = (.ok (), m', tr) →
      ∃ m2 tr1 tr2, options env a m = (.ok (), m2, tr1)
        ∧ options env b m2 = (.ok (), m', tr2)
  | [], b, m, m', tr, h => ⟨m, [], tr, rfl, h⟩
  | o :: a, b, m, m', tr, h => by
      rw [List.cons_append] at h
      cases hstep : Opt.opt env o m with
      | mk r p =>
          cases r with
          | error e =>
              simp only [options, hstep] at h
              simp at h
          | ok u =>
              simp only [options, hstep] at h
              cases hrec : options env (a ++ b) p.1 with
              | mk r2 p2 =>
                  rw [hrec] at h
                  have hr2 : r2 = .ok () := by
                    have := congrArg (fun x => x.1) h
                    simpa using this
                  have hm3 : p2.1 = m' := by
                    have := congrArg (fun x => x.2.1) h
                    simpa using this
                  have hfix : options env (a ++ b) p.1 = (.ok (), m', p2.2) := by
                    rw [hrec, hr2, ← hm3]
                  obtain ⟨m2, tr1, tr2, ha, hb⟩ :=
                    options_append_ok env a b p.1 m' p2.2 hfix
                  refine ⟨m2, p.2 ++ tr1, tr2, ?_, hb⟩
                  simp only [options, hstep, ha]

/-- C6: for any successful option run containing `Up` followed later by
`Down` (with no further `Up` after that `Down`, and any other options
anywhere), the resulting message has the up-flag bit cleared and the
change-mask up bit set; moreover `Up` sets the up bit in both the change mask
and the flags, and `Down` sets the change-mask up bit while clearing the
flags up bit. -/
theorem up_then_down_clears_flag (env : Env) (l1 l2 l3 : List Opt)
    (m m' : LinkMessage) (tr : List Event)
    (hno : Opt.Up ∉ l3)
    (h : options env (l1 ++ Opt.Up :: (l2 ++ Opt.Down :: l3)) m = (.ok (), m', tr)) :
    (m'.header.flags.testBit 0 = false ∧ m'.header.change_mask.testBit 0 = true)
    ∧ (∀ m0, ((Opt.opt env .Up m0).2.1).header.flags.testBit 0 = true
        ∧ ((Opt.opt env .Up m0).2.1).header.change_mask.testBit 0 = true)
    ∧ (∀ m0, ((Opt.opt env .Down m0).2.1).header.flags.testBit 0 = false
        ∧ ((Opt.opt env .Down m0).2.1).header.change_mask.testBit 0 = true) := by
  refine ⟨?_, fun m0 => opt_up_sets_bits env m0, fun m0 => opt_down_downState env m0⟩
  have hsplit : l1 ++ Opt.Up :: (l2 ++ Opt.Down :: l3)
      = ((l1 ++ Opt.Up :: l2) ++ [Opt.Down]) ++ l3 := by simp
  rw [hsplit] at h
  obtain ⟨m4, tr1, tr2, hA, hB⟩ := options_append_ok env _ l3 m m' tr h
  obtain ⟨m3, tra, trb, _, hDown⟩ :=
    options_append_ok env _ [Opt.Down] m m4 tr1 hA
  have hcomp : options env [Opt.Down] m3
      = (.ok (), (Opt.opt env .Down m3).2.1, []) := rfl
  rw [hcomp] at hDown
  have hm4 : (Opt.opt env .Down m3).2.1 = m4 := by
    have := congrArg (fun x => x.2.1) hDown
    simpa using this
  have hdown : downState m4 := hm4 ▸ opt_down_downState env m3
  have hfin := options_noUp_preserves env l3 m4 hno hdown
  rw [hB] at hfin
  exact hfin

/-- Witness for `up_then_down_clears_flag`: the run `[Up, Down]` on a default
message ends with flags bit 0 clear and change-mask bit 0 set. -/
theorem up_then_down_witness :
    (LinkMessage.mk { index := 0, flags := 0, change_mask := 1 } []).header.flags.testBit 0 = false
    ∧ (LinkMessage.mk { index := 0, flags := 0, change_mask := 1 } []).header.change_mask.testBit 0
        = true :=
  (up_then_down_clears_flag benignEnv [] [] [] LinkMessage.default
    (LinkMessage.mk { index := 0, flags := 0, change_mask := 1 } []) []
    (by simp) rfl).1

/-! ### C3 — lifetime of the descriptor `Opt::NetNS` opens -/

/-- C3: executing `IPLink { action: Set, name: "v0", options: [NetNS("ns1")],
link_type: None }` against an environment whose open returns descriptor 3 and
whose response stream is empty completes successfully, yet the whole event
trace consists of the single open — no close of the descriptor ever happens,
neither before nor after the request completes, so the descriptor leaks. -/
theorem netns_fd_never_closed :
    IPLink.execute benignEnv emptyTransport
      { action := .Set, name := "v0", options := [.NetNS "ns1"], link_type := none }
      = (.ok (), [Event.openFd (NETNS_PATH ++ "ns1") [.O_RDONLY] 3])
    ∧ ([Event.openFd (NETNS_PATH ++ "ns1") [.O_RDONLY] 3].all (fun e => !e.isClose)) = true := by
  exact ⟨rfl, rfl⟩

/-! ### C7 — draining the response stream -/

lemma drainFrames_ok_iff (fs : List NetlinkPayload) :
    (drainFrames fs).1 = .ok () ↔ ∀ c : Int, NetlinkPayload.error c ∉ fs := by
  induction fs with
  | nil => simp [drainFrames]
  | cons f rest ih =>
      cases f with
      | error code =>
          simp [drainFrames]
          exact ⟨code, fun h => absurd rfl h⟩
      | other =>
          cases hrec : drainFrames rest with
          | mk r n =>
              rw [drainFrames, hrec]
              rw [hrec] at ih
              simpa using ih

lemma drainFrames_ok_length (fs : List NetlinkPayload) :
    (drainFrames fs).1 = .ok () → (drainFrames fs).2 = fs.length := by
  induction fs with
  | nil => intro _; rfl
  | cons f rest ih =>
      cases f with
      | error code => intro h; simp [drainFrames] at h
      | other =>
          cases hrec : drainFrames rest with
          | mk r n =>
              rw [drainFrames, hrec]
              rw [hrec] at ih
              intro h
              simp only [List.length_cons]
              simpa using ih (by simpa using h)

lemma drainFrames_error_mem (fs : List NetlinkPayload) (c : Int) :
    (drainFrames fs).1 = .error c → NetlinkPayload.error c ∈ fs := by
  induction fs with
  | nil => intro h; simp [drainFrames] at h
  | cons f rest ih =>
      cases f with
      | error code =>
          intro h
          simp [drainFrames] at h
          simp [h]
      | other =>
          cases hrec : drainFrames rest with
          | mk r n =>
              rw [drainFrames, hrec]
              rw [hrec] at ih
              intro h
              exact List.mem_cons_of_mem _ (ih (by simpa using h))

/-- C7: the drain loop shared by `IPLink::execute` and `IPRoute::execute`
returns success exactly when no response frame carries a protocol-level error
payload, in which case it has consumed the whole stream; when it fails, the
kernel error code it names was carried by a frame of the stream; and both
`execute` functions return precisely the drain verdict once the request was
built and sent. -/
theorem response_drain_semantics (env : Env) (t : Transport) (l : IPLink)
    (r : IPRoute) (frames : List NetlinkPayload) :
    ((drainFrames frames).1 = .ok () ↔ ∀ c : Int, NetlinkPayload.error c ∉ frames)
    ∧ ((drainFrames frames).1 = .ok () → (drainFrames frames).2 = frames.length)
    ∧ (∀ c, (drainFrames frames).1 = .error c → NetlinkPayload.error c ∈ frames)
    ∧ (∀ m tr, l.buildMessage env = (.ok m, tr) →
        t.respond (l.buildReq m) = .ok frames →
        IPLink.execute env t l
          = ((match (drainFrames frames).1 with
              | .ok _ => Except.ok ()
              | .error code => Except.error (.netlink code)), tr))
    ∧ (t.respond r.buildReq = .ok frames →
        IPRoute.execute t r
          = match (drainFrames frames).1 with
            | .ok _ => Except.ok ()
            | .error code => Except.error (.netlink code)) := by
  refine ⟨drainFrames_ok_iff frames, drainFrames_ok_length frames,
    fun c => drainFrames_error_mem frames c, ?_, ?_⟩
  · intro m tr hbuild hresp
    cases hd : drainFrames frames with
    | mk r2 n =>
        cases r2 with
        | error code => simp [IPLink.execute, hbuild, hresp, hd]
        | ok u => simp [IPLink.execute, hbuild, hresp, hd]
  · intro hresp
    cases hd : drainFrames frames with
    | mk r2 n =>
        cases r2 with
        | error code => simp [IPRoute.execute, hresp, hd]
        | ok u => simp [IPRoute.execute, hresp, hd]

/-- Witness for `response_drain_semantics`: a fully drained empty response
stream makes a route delete succeed. -/
theorem response_drain_witness :
    IPRoute.execute emptyTransport { action := .Del, msg := {} } = .ok () := by
  have := (response_drain_semantics benignEnv emptyTransport
    { action := .Set, name := "v0", options := [], link_type := none }
    { action := .Del, msg := {} } []).2.2.2.2 rfl
  simpa using this

/-! ### C8 — `set_net_ns` descriptor discipline and error texts -/

lemma set_net_ns_open_err (env : Env) (ns e : String)
    (h : env.openRes (NETNS_RUN_DIR ++ ns) [.O_RDONLY, .O_CLOEXEC] = .error e) :
    set_net_ns env ns
      = (.error ("Cannot open network namespace \"" ++ ns ++ "\": " ++ e ++ "\n"), []) := by
  simp [set_net_ns, h]

lemma set_net_ns_setns_err (env : Env) (ns e : String) (fd : Int)
    (ho : env.openRes (NETNS_RUN_DIR ++ ns) [.O_RDONLY, .O_CLOEXEC] = .ok fd)
    (hs : env.setnsRes fd = .error e)
    (hc : env.closeRes fd = .ok ()) :
    set_net_ns env ns
      = (.error ("setting the network namespace " ++ ns ++ " failed: " ++ e),
         [.openFd (NETNS_RUN_DIR ++ ns) [.O_RDONLY, .O_CLOEXEC] fd, .closeFd fd]) := by
  simp [set_net_ns, ho, hs, hc]

lemma set_net_ns_ok (env : Env) (ns : String) (fd : Int)
    (ho : env.openRes (NETNS_RUN_DIR ++ ns) [.O_RDONLY, .O_CLOEXEC] = .ok fd)
    (hs : env.setnsRes fd = .ok ())
    (hc : env.closeRes fd = .ok ()) :
    set_net_ns env ns
      = (.ok (),
         [.openFd (NETNS_RUN_DIR ++ ns) [.O_RDONLY, .O_CLOEXEC] fd, .closeFd fd]) := by
  simp [set_net_ns, ho, hs, hc]

/-- C8: `set_net_ns` opens the reference read-only and close-on-exec (every
open event on its trace is at the run-dir path with exactly those flags, and is
matched by a close of the same descriptor on the trace, whether `setns`
succeeded or failed); an open failure and a `setns` failure each produce a
descriptive error containing both the namespace name and the OS error text;
and with both calls succeeding the function succeeds.  (The environment is
assumed to close descriptors without failing, the normal OS behaviour.) -/
theorem set_net_ns_spec (env : Env) (ns : String)
    (hclose : ∀ fd, env.closeRes fd = .ok ()) :
    (∀ p fl fd, Event.openFd p fl fd ∈ (set_net_ns env ns).2 →
        p = NETNS_RUN_DIR ++ ns ∧ fl = [OFlag.O_RDONLY, OFlag.O_CLOEXEC]
        ∧ Event.closeFd fd ∈ (set_net_ns env ns).2)
    ∧ (∀ e, env.openRes (NETNS_RUN_DIR ++ ns) [.O_RDONLY, .O_CLOEXEC] = .error e →
        (set_net_ns env ns).1
          = .error ("Cannot open network namespace \"" ++ ns ++ "\": " ++ e ++ "\n")
        ∧ containsStr ("Cannot open network namespace \"" ++ ns ++ "\": " ++ e ++ "\n") ns
        ∧ containsStr ("Cannot open network namespace \"" ++ ns ++ "\": " ++ e ++ "\n") e)
    ∧ (∀ fd e, env.openRes (NETNS_RUN_DIR ++ ns) [.O_RDONLY, .O_CLOEXEC] = .ok fd →
        env.setnsRes fd = .error e →
        (set_net_ns env ns).1
          = .error ("setting the network namespace " ++ ns ++ " failed: " ++ e)
        ∧ containsStr ("setting the network namespace " ++ ns ++ " failed: " ++ e) ns
        ∧ containsStr ("setting the network namespace " ++ ns ++ " failed: " ++ e) e)
    ∧ (∀ fd, env.openRes (NETNS_RUN_DIR ++ ns) [.O_RDONLY, .O_CLOEXEC] = .ok fd →
        env.setnsRes fd = .ok () →
        (set_net_ns env ns).1 = .ok ()) := by
  refine ⟨?_, ?_, ?_, ?_⟩
  · intro p fl fd hmem
    cases ho : env.openRes (NETNS_RUN_DIR ++ ns) [.O_RDONLY, .O_CLOEXEC] with
    | error e =>
        rw [set_net_ns_open_err env ns e ho] at hmem
        simp at hmem
    | ok fd0 =>
        cases hs : env.setnsRes fd0 with
        | error e =>
            rw [set_net_ns_setns_err env ns e fd0 ho hs (hclose fd0)] at hmem ⊢
            simp at hmem
            obtain ⟨hp, hf, hfd⟩ := hmem
            subst hp hf hfd
            simp
        | ok u =>
            cases u
            rw [set_net_ns_ok env ns fd0 ho hs (hclose fd0)] at hmem ⊢
            simp at hmem
            obtain ⟨hp, hf, hfd⟩ := hmem
            subst hp hf hfd
            simp
  · intro e ho
    refine ⟨by rw [set_net_ns_open_err env ns e ho], ?_, ?_⟩
    · exact ⟨("Cannot open network namespace \"").data,
        ("\": " ++ e ++ "\n").data, by simp [String.data_append]⟩
    · exact ⟨("Cannot open network namespace \"" ++ ns ++ "\": ").data,
        ("\n").data, by simp [String.data_append]⟩
  · intro fd e ho hs
    refine ⟨by rw [set_net_ns_setns_err env ns e fd ho hs (hclose fd)], ?_, ?_⟩
    · exact ⟨("setting the network namespace ").data,
        (" failed: " ++ e).data, by simp [String.data_append]⟩
    · exact ⟨("setting the network namespace " ++ ns ++ " failed: ").data,
        ([] : List Char), by simp [String.data_append]⟩
  · intro fd ho hs
    rw [set_net_ns_ok env ns fd ho hs (hclose fd)]

/-- Witness for `set_net_ns_spec`: in the benign environment the switch into
"ns1" succeeds. -/
theorem set_net_ns_spec_witness :
    (set_net_ns benignEnv "ns1").1 = .ok () :=
  (set_net_ns_spec benignEnv "ns1" (fun _ => rfl)).2.2.2 3 rfl rfl

/-! ### C9 — the fork/exec state machine -/

/-- Every event on `set_net_ns`'s trace is a descriptor open or close. -/
lemma set_net_ns_trace_shape (env : Env) (ns : String) :
    ∀ e ∈ (set_net_ns env ns).2, e.isLog = false ∧ e ≠ .runWork := by
  intro e he
  cases ho : env.openRes (NETNS_RUN_DIR ++ ns) [.O_RDONLY, .O_CLOEXEC] with
  | error er =>
      rw [set_net_ns_open_err env ns er ho] at he
      simp at he
  | ok fd =>
      have hshape : (set_net_ns env ns).2
          = [.openFd (NETNS_RUN_DIR ++ ns) [.O_RDONLY, .O_CLOEXEC] fd, .closeFd fd] := by
        cases hs : env.setnsRes fd with
        | error er => cases hc : env.closeRes fd <;> simp [set_net_ns, ho, hs, hc]
        | ok u => cases u; cases hc : env.closeRes fd <;> simp [set_net_ns, ho, hs, hc]
      rw [hshape] at he
      simp at he
      rcases he with he | he
      · subst he; exact ⟨rfl, by simp⟩
      · subst he; exact ⟨rfl, by simp⟩

/-- Every event `bind_etc` emits is a log line. -/
lemma bind_etc_trace_shape (env : Env) (ns : String) :
    ∀ e ∈ bind_etc env ns, (∃ rest, e = .logMsg ("Bind " ++ rest)) := by
  intro e he
  unfold bind_etc at he
  by_cases hlen : ns.length > 255
  · simp [hlen] at he
  · rw [if_neg hlen] at he
    cases hdir : env.readDirRes ("/etc/netns/" ++ ns) with
    | none => rw [hdir] at he; simp at he
    | some files =>
        rw [hdir] at he
        rw [List.mem_flatMap] at he
        obtain ⟨file, _, hf⟩ := he
        cases hm : env.mountRes ("/etc/netns/" ++ ns ++ "/" ++ file) ("/etc/" ++ file) [.MS_BIND] with
        | error er =>
            simp only [bind_etc_file, hm, List.mem_singleton] at hf
            subst hf
            refine ⟨("/etc/netns/" ++ ns ++ "/" ++ file) ++ " -> " ++ ("/etc/" ++ file)
              ++ " failed: " ++ er ++ "\n", ?_⟩
            simp [String.append_assoc]
        | ok u => simp [bind_etc_file, hm] at hf

/-- `netns_switch`'s trace is `set_net_ns`'s trace, possibly followed by
`bind_etc`'s events. -/
lemma netns_switch_trace_cases (env : Env) (ns : String) :
    (netns_switch env ns).2 = (set_net_ns env ns).2
    ∨ (netns_switch env ns).2 = (set_net_ns env ns).2 ++ bind_etc env ns := by
  cases hsw : set_net_ns env ns with
  | mk r tr =>
      cases r with
      | error e => left; simp [netns_switch, hsw]
      | ok u =>
          cases u
          cases hu : env.unshareRes with
          | error e => left; simp [netns_switch, hsw, hu]
          | ok u2 =>
              cases u2
              cases hm1 : env.mountRes "" "/" [.MS_SLAVE, .MS_REC] with
              | error e => left; simp [netns_switch, hsw, hu, hm1]
              | ok u3 =>
                  cases u3
                  cases hm2 : env.mountRes ns "/sys" (sysMountFlags env) with
                  | error e => left; simp [netns_switch, hsw, hu, hm1, hm2]
                  | ok u4 =>
                      cases u4
                      right
                      simp [netns_switch, hsw, hu, hm1, hm2]

lemma netns_switch_no_runWork (env : Env) (ns : String) :
    Event.runWork ∉ (netns_switch env ns).2 := by
  intro hmem
  rcases netns_switch_trace_cases env ns with hc | hc
  · rw [hc] at hmem
    exact (set_net_ns_trace_shape env ns _ hmem).2 rfl
  · rw [hc, List.mem_append] at hmem
    rcases hmem with hmem | hmem
    · exact (set_net_ns_trace_shape env ns _ hmem).2 rfl
    · obtain ⟨rest, hr⟩ := bind_etc_trace_shape env ns _ hmem
      simp at hr

/-- C9: after a successful fork, the child exits 1 without invoking the work
when `netns_switch` fails, exits 1 after invoking the work when the work
fails, and exits 0 when the work succeeds; the parent turns exit 0 into
success and a nonzero exit into failure; a failed fork is an error. -/
theorem ip_net_ns_exec_spec (env : Env) (ns : String) (fRes : Except String Unit) :
    (env.forkFails = true → ip_net_ns_exec env ns fRes = (.error "Fork failed", []))
    ∧ (env.forkFails = false →
        (∀ e tr, netns_switch env ns = (.error e, tr) →
            (ip_net_ns_exec_child env ns fRes).1 = 1
            ∧ Event.runWork ∉ (ip_net_ns_exec_child env ns fRes).2
            ∧ (ip_net_ns_exec env ns fRes).1 = .error "child process failed")
        ∧ (∀ e tr, netns_switch env ns = (.ok (), tr) → fRes = .error e →
            (ip_net_ns_exec_child env ns fRes).1 = 1
            ∧ Event.runWork ∈ (ip_net_ns_exec_child env ns fRes).2
            ∧ (ip_net_ns_exec env ns fRes).1 = .error "child process failed")
        ∧ (∀ tr, netns_switch env ns = (.ok (), tr) → fRes = .ok () →
            (ip_net_ns_exec_child env ns fRes).1 = 0
            ∧ (ip_net_ns_exec env ns fRes).1 = .ok ())) := by
  refine ⟨?_, ?_⟩
  · intro hf
    simp [ip_net_ns_exec, hf]
  · intro hf
    refine ⟨?_, ?_, ?_⟩
    · intro e tr hsw
      have hchild : ip_net_ns_exec_child env ns fRes = (1, tr) := by
        simp [ip_net_ns_exec_child, hsw]
      refine ⟨by rw [hchild], ?_, ?_⟩
      · rw [hchild]
        intro hmem
        exact netns_switch_no_runWork env ns (by rw [hsw]; exact hmem)
      · simp [ip_net_ns_exec, hf, hchild, parent_process]
    · intro e tr hsw hfr
      have hchild : ip_net_ns_exec_child env ns fRes = (1, tr ++ [.runWork]) := by
        simp [ip_net_ns_exec_child, hsw, hfr]
      refine ⟨by rw [hchild], by rw [hchild]; simp, ?_⟩
      simp [ip_net_ns_exec, hf, hchild, parent_process]
    · intro tr hsw hfr
      have hchild : ip_net_ns_exec_child env ns fRes = (0, tr ++ [.runWork]) := by
        simp [ip_net_ns_exec_child, hsw, hfr]
      exact ⟨by rw [hchild], by simp [ip_net_ns_exec, hf, hchild, parent_process]⟩

/-- Witness for `ip_net_ns_exec_spec`: with benign system calls and succeeding
work, the call succeeds. -/
theorem ip_net_ns_exec_witness :
    (ip_net_ns_exec benignEnv "ns1" (.ok ())).1 = .ok () :=
  (((ip_net_ns_exec_spec benignEnv "ns1" (.ok ())).2 rfl).2.2
    [.openFd (NETNS_RUN_DIR ++ "ns1") [.O_RDONLY, .O_CLOEXEC] 3, .closeFd 3]
    rfl rfl).2

/-! ### C4 — which failures are swallowed -/

lemma set_net_ns_close_err (env : Env) (ns ce : String) (fd : Int)
    (ho : env.openRes (NETNS_RUN_DIR ++ ns) [.O_RDONLY, .O_CLOEXEC] = .ok fd)
    (hc : env.closeRes fd = .error ce) :
    (set_net_ns env ns).1 = .error ce := by
  cases hs : env.setnsRes fd with
  | error e => simp [set_net_ns, ho, hs, hc]
  | ok u => cases u; simp [set_net_ns, ho, hs, hc]

lemma opt_trace_no_log (env : Env) (o : Opt) (m : LinkMessage) :
    ∀ ev ∈ (Opt.opt env o m).2.2, ev.isLog = false := by
  intro ev hev
  cases o with
  | Up => simp [Opt.opt] at hev
  | Down => simp [Opt.opt] at hev
  | Master n =>
      cases hg : get_link_name env n with
      | error e => simp [Opt.opt, hg] at hev
      | ok link => simp [Opt.opt, hg] at hev
  | NetNS n =>
      cases ho : env.openRes (NETNS_PATH ++ n) [.O_RDONLY] with
      | error e => simp [Opt.opt, ho] at hev
      | ok fd =>
          simp [Opt.opt, ho] at hev
          subst hev
          rfl

lemma options_trace_no_log (env : Env) :
    ∀ (l : List Opt) (m : LinkMessage), ∀ ev ∈ (options env l m).2.2, ev.isLog = false
  | [], m, ev, hev => by simp [options] at hev
  | o :: rest, m, ev, hev => by
      cases hstep : Opt.opt env o m with
      | mk r p =>
          cases r with
          | error e =>
              simp only [options, hstep] at hev
              exact opt_trace_no_log env o m ev (by rw [hstep]; exact hev)
          | ok u =>
              simp only [options, hstep] at hev
              cases hrec : options env rest p.1 with
              | mk r2 p2 =>
                  rw [hrec] at hev
                  rcases List.mem_append.mp hev with h | h
                  · exact opt_trace_no_log env o m ev (by rw [hstep]; exact h)
                  · exact options_trace_no_log env rest p.1 ev (by rw [hrec]; exact h)

lemma link_type_trace_no_log (env : Env) (lt : LinkTypeEnum) (m : LinkMessage) :
    ∀ ev ∈ (LinkTypeEnum.link_type env lt m).2.2, ev.isLog = false := by
  intro ev hev
  cases lt with
  | Veth v =>
      cases hopt : options env v.options m with
      | mk r p =>
          cases r with
          | error e =>
              simp only [LinkTypeEnum.link_type, Veth.link_type, hopt] at hev
              exact options_trace_no_log env v.options m ev (by rw [hopt]; exact hev)
          | ok u =>
              simp only [LinkTypeEnum.link_type, Veth.link_type, hopt] at hev
              exact options_trace_no_log env v.options m ev (by rw [hopt]; exact hev)
  | Bridge b => simp [LinkTypeEnum.link_type, Bridge.link_type] at hev

lemma buildMessage_trace_no_log (env : Env) (l : IPLink) :
    ∀ ev ∈ (l.buildMessage env).2, ev.isLog = false := by
  intro ev hev
  cases hopt : options env l.options (Iproute2.name l.name LinkMessage.default) with
  | mk r p =>
      cases r with
      | error e =>
          simp only [IPLink.buildMessage, hopt] at hev
          exact options_trace_no_log env l.options _ ev (by rw [hopt]; exact hev)
      | ok u =>
          cases hlt : l.link_type with
          | none =>
              simp only [IPLink.buildMessage, hopt, hlt] at hev
              exact options_trace_no_log env l.options _ ev (by rw [hopt]; exact hev)
          | some lt =>
              cases hltr : LinkTypeEnum.link_type env lt p.1 with
              | mk r2 p2 =>
                  cases r2 with
                  | error e =>
                      simp only [IPLink.buildMessage, hopt, hlt, hltr] at hev
                      rcases List.mem_append.mp hev with h | h
                      · exact options_trace_no_log env l.options _ ev (by rw [hopt]; exact h)
                      · exact link_type_trace_no_log env lt p.1 ev (by rw [hltr]; exact h)
                  | ok u2 =>
                      simp only [IPLink.buildMessage, hopt, hlt, hltr] at hev
                      rcases List.mem_append.mp hev with h | h
                      · exact options_trace_no_log env l.options _ ev (by rw [hopt]; exact h)
                      · exact link_type_trace_no_log env lt p.1 ev (by rw [hltr]; exact h)

lemma execute_trace_no_log (env : Env) (t : Transport) (l : IPLink) :
    ∀ ev ∈ (IPLink.execute env t l).2, ev.isLog = false := by
  intro ev hev
  cases hb : l.buildMessage env with
  | mk r tr =>
      cases r with
      | error e =>
          simp only [IPLink.execute, hb] at hev
          exact buildMessage_trace_no_log env l ev (by rw [hb]; exact hev)
      | ok m =>
          cases hresp : t.respond (l.buildReq m) with
          | error e =>
              simp only [IPLink.execute, hb, hresp] at hev
              exact buildMessage_trace_no_log env l ev (by rw [hb]; exact hev)
          | ok frames =>
              cases hd : drainFrames frames with
              | mk r2 n =>
                  cases r2 with
                  | error code =>
                      simp only [IPLink.execute, hb, hresp, hd] at hev
                      exact buildMessage_trace_no_log env l ev (by rw [hb]; exact hev)
                  | ok u =>
                      simp only [IPLink.execute, hb, hresp, hd] at hev
                      exact buildMessage_trace_no_log env l ev (by rw [hb]; exact hev)

/-- Environment in which every `umount2` fails with `EBUSY` but everything
else succeeds. -/
def umountFailEnv : Env :=
  { benignEnv with umountRes := fun _ => .error "EBUSY" }

/-- C4 counterexample: deleting namespace "ns1" while its reference file
cannot be unmounted.  The umount step fails, yet `ip_net_ns_del` merely
prints a log line and returns success — an operation other than the `/etc`
override setup that logs a failed step and continues as if it succeeded,
contradicting the claim. -/
theorem del_swallows_umount_failure :
    umountFailEnv.umountRes (NETNS_RUN_DIR ++ "ns1") = .error "EBUSY"
    ∧ (ip_net_ns_del umountFailEnv "ns1").1 = .ok ()
    ∧ (ip_net_ns_del umountFailEnv "ns1").2
        = [.logMsg ("Cannot umount namespace file \" " ++ (NETNS_RUN_DIR ++ "ns1")
            ++ " \": EBUSY")] := by
  exact ⟨rfl, rfl, rfl⟩

/-- C4 (amended): every fallible step returns a descriptive error to its
caller, except exactly two log-and-continue points: the per-file bind mounts
of the `/etc` override setup, and the umount of the namespace reference file
inside namespace deletion.  Concretely: `set_net_ns` succeeds only when its
open, `setns` and close all succeeded and never logs; `netns_switch` succeeds
only when every fatal step succeeded, and its only log lines are the
"Bind ..." per-file messages; a failed per-file bind mount is logged on
`bind_etc`'s trace (which has no error channel); `ip_net_ns_del` returns the
unlink failure but logs-and-continues past the umount failure; and request
execution never logs. -/
theorem error_swallowing_points (env : Env) (t : Transport) (l : IPLink)
    (ns e : String) :
    ((set_net_ns env ns).1 = .ok () →
        ∃ fd, env.openRes (NETNS_RUN_DIR ++ ns) [.O_RDONLY, .O_CLOEXEC] = .ok fd
          ∧ env.setnsRes fd = .ok () ∧ env.closeRes fd = .ok ())
    ∧ (∀ ev ∈ (set_net_ns env ns).2, ev.isLog = false)
    ∧ ((netns_switch env ns).1 = .ok () →
        (set_net_ns env ns).1 = .ok () ∧ env.unshareRes = .ok ()
        ∧ env.mountRes "" "/" [.MS_SLAVE, .MS_REC] = .ok ()
        ∧ env.mountRes ns "/sys" (sysMountFlags env) = .ok ())
    ∧ (∀ s, Event.logMsg s ∈ (netns_switch env ns).2 → ∃ rest, s = "Bind " ++ rest)
    ∧ (∀ files file, env.readDirRes ("/etc/netns/" ++ ns) = some files →
        file ∈ files → ¬ ns.length > 255 →
        env.mountRes ("/etc/netns/" ++ ns ++ "/" ++ file) ("/etc/" ++ file) [.MS_BIND]
          = .error e →
        Event.logMsg ("Bind " ++ ("/etc/netns/" ++ ns ++ "/" ++ file) ++ " -> "
          ++ ("/etc/" ++ file) ++ " failed: " ++ e ++ "\n") ∈ bind_etc env ns)
    ∧ (env.unlinkRes (NETNS_RUN_DIR ++ ns) = .error e →
        (ip_net_ns_del env ns).1
          = .error ("Cannot remove namespace file \"" ++ (NETNS_RUN_DIR ++ ns)
              ++ "\": " ++ e ++ "\n"))
    ∧ (env.umountRes (NETNS_RUN_DIR ++ ns) = .error e →
        env.unlinkRes (NETNS_RUN_DIR ++ ns) = .ok () →
        ip_net_ns_del env ns
          = (.ok (), [.logMsg ("Cannot umount namespace file \" "
              ++ (NETNS_RUN_DIR ++ ns) ++ " \": " ++ e)]))
    ∧ (∀ ev ∈ (IPLink.execute env t l).2, ev.isLog = false) := by
  refine ⟨?_, ?_, ?_, ?_, ?_, ?_, ?_, execute_trace_no_log env t l⟩
  · intro h
    cases ho : env.openRes (NETNS_RUN_DIR ++ ns) [.O_RDONLY, .O_CLOEXEC] with
    | error er =>
        rw [set_net_ns_open_err env ns er ho] at h
        simp at h
    | ok fd =>
        refine ⟨fd, rfl, ?_⟩
        cases hc : env.closeRes fd with
        | error ce =>
            rw [set_net_ns_close_err env ns ce fd ho hc] at h
            simp at h
        | ok u =>
            cases u
            cases hs : env.setnsRes fd with
            | error er =>
                rw [congrArg (fun x => x.1) (set_net_ns_setns_err env ns er fd ho hs hc)] at h
                simp at h
            | ok u2 => cases u2; exact ⟨rfl, rfl⟩
  · intro ev hev
    exact (set_net_ns_trace_shape env ns ev hev).1
  · intro h
    cases hsw : set_net_ns env ns with
    | mk r tr =>
        cases r with
        | error er => simp [netns_switch, hsw] at h
        | ok u =>
            cases u
            refine ⟨rfl, ?_⟩
            cases hu : env.unshareRes with
            | error er => simp [netns_switch, hsw, hu] at h
            | ok u2 =>
                cases u2
                refine ⟨rfl, ?_⟩
                cases hm1 : env.mountRes "" "/" [.MS_SLAVE, .MS_REC] with
                | error er => simp [netns_switch, hsw, hu, hm1] at h
                | ok u3 =>
                    cases u3
                    refine ⟨rfl, ?_⟩
                    cases hm2 : env.mountRes ns "/sys" (sysMountFlags env) with
                    | error er => simp [netns_switch, hsw, hu, hm1, hm2] at h
                    | ok u4 => cases u4; rfl
  · intro s hmem
    rcases netns_switch_trace_cases env ns with hc | hc
    · rw [hc] at hmem
      have := (set_net_ns_trace_shape env ns _ hmem).1
      simp [Event.isLog] at this
    · rw [hc, List.mem_append] at hmem
      rcases hmem with hmem | hmem
      · have := (set_net_ns_trace_shape env ns _ hmem).1
        simp [Event.isLog] at this
      · obtain ⟨rest, hr⟩ := bind_etc_trace_shape env ns _ hmem
        exact ⟨rest, by injection hr⟩
  · intro files file hdir hfile hlen hm
    unfold bind_etc
    rw [if_neg hlen, hdir, List.mem_flatMap]
    refine ⟨file, hfile, ?_⟩
    simp [bind_etc_file, hm]
  · intro hu
    simp [ip_net_ns_del, hu]
  · intro hm hu
    simp [ip_net_ns_del, hm, hu]

/-- Witness for `error_swallowing_points`: the umount-failure swallow point of
namespace deletion, exercised at a concrete environment. -/
theorem error_swallowing_witness :
    ip_net_ns_del umountFailEnv "ns1"
      = (.ok (), [.logMsg ("Cannot umount namespace file \" "
          ++ (NETNS_RUN_DIR ++ "ns1") ++ " \": EBUSY")]) :=
  (error_swallowing_points umountFailEnv emptyTransport
    { action := .Set, name := "v0", options := [], link_type := none }
    "ns1" "EBUSY").2.2.2.2.2.2.1 rfl rfl

end Iproute2
